import Mathlib

/-!
Shallow embedding of `bioproject_keyword_search.py` (Haelmorn/bioproject_search).

Python strings are modelled as `List Char` (`PyStr`), Python dicts as
association lists with replace-on-existing-key insertion, the two remote
endpoints (`requests.get` and `Entrez.efetch`) as oracle functions supplied
as parameters, and `exit(1)` / exceptions as `Except` / `Option` values.
-/

/-- Python strings, modelled as lists of characters. -/
abbrev PyStr := List Char

/-- Characters Python's `str.strip()` removes (the ASCII whitespace class). -/
def pyIsSpace (c : Char) : Bool :=
  c = ' ' || c = '\n' || c = '\t' || c = '\r' || c = '\x0b' || c = '\x0c'

/-- `s.strip()`: remove leading and trailing whitespace. -/
def pyStrip (s : PyStr) : PyStr :=
  ((s.dropWhile pyIsSpace).reverse.dropWhile pyIsSpace).reverse

/-- Locate the first occurrence of `sep` in `s`: returns the part strictly
before it and the part strictly after it, or `none` when `sep` does not
occur.  Mirrors the scan done by Python's `str.split`. -/
def findSplit (sep : PyStr) : PyStr → Option (PyStr × PyStr)
  | [] => none
  | c :: cs =>
    if sep.isPrefixOf (c :: cs) then some ([], (c :: cs).drop sep.length)
    else
      match findSplit sep cs with
      | some (pre, post) => some (c :: pre, post)
      | none => none

/-- Fuelled worker for `pySplit`. -/
def pySplitAux (sep : PyStr) : Nat → PyStr → List PyStr
  | 0, s => [s]
  | fuel + 1, s =>
    match findSplit sep s with
    | none => [s]
    | some (pre, post) => pre :: pySplitAux sep fuel post

/-- Python's `s.split(sep)` for a non-empty separator: split on every
(left-to-right, non-overlapping) occurrence of `sep`.  The fuel
`s.length + 1` is enough because every found occurrence strictly shortens
the remaining suffix. -/
def pySplit (sep : PyStr) (s : PyStr) : List PyStr :=
  pySplitAux sep (s.length + 1) s

/-- `sep.join(parts)` for Python lists of strings. -/
def pyJoin (sep : PyStr) : List PyStr → PyStr
  | [] => []
  | [s] => s
  | s :: rest => s ++ sep ++ pyJoin sep rest

/-- The abstract marker `"1. "`. -/
def abstractMarker : PyStr := "1. ".data

/-- The accession marker `"BioProject Accession: "`. -/
def accessionMarker : PyStr := "BioProject Accession: ".data

/-- The separator `": "` used to split the accession line. -/
def sepColon : PyStr := ": ".data

/--
`check_proper_entrez_response(cleaned_result)`:
```python
if not any([result.startswith("1. ") for result in cleaned_result]):
    return False
if not any([result.startswith("BioProject Accession: ") for result in cleaned_result]):
    return False
return True
```
-/
def check_proper_entrez_response (cleaned_result : List PyStr) : Bool :=
  if !(cleaned_result.any fun result => abstractMarker.isPrefixOf result) then
    false
  else if !(cleaned_result.any fun result => accessionMarker.isPrefixOf result) then
    false
  else
    true

/-- The cleaning step of `convert_ids_to_accessions`:
`[result.strip() for result in entrez_result if result != "\n"]`. -/
def pyClean (entrez_result : List PyStr) : List PyStr :=
  (entrez_result.filter fun result => result ≠ "\n".data).map pyStrip

/-- A Python dict modelled as an association list in insertion order;
`dictInsert` is `d[k] = v`: replace in place when the key exists, append
otherwise. -/
def dictInsert (m : List (PyStr × PyStr)) (k v : PyStr) : List (PyStr × PyStr) :=
  if m.any fun p => p.1 == k then
    m.map fun p => if p.1 = k then (k, v) else p
  else
    m ++ [(k, v)]

/-- `d.get(k)` on the association-list dict model. -/
def dictLookup (m : List (PyStr × PyStr)) (k : PyStr) : Option PyStr :=
  (m.find? fun p => p.1 == k).map Prod.snd

/-- Python's `str(list_of_str)`: `['a', 'b']` (quote-escaping of elements
containing quotes is not modelled; no claim depends on this value). -/
def pyReprList (xs : List PyStr) : PyStr :=
  "[".data ++ pyJoin ", ".data (xs.map fun s => ['\''] ++ s ++ ['\'']) ++ "]".data

/-- The decoded JSON body of one search response: `status_code` and the
`esearchresult.idlist` field read on the 200 path. -/
structure HttpResponse where
  status_code : Nat
  idlist : List PyStr

/-- `"+".join(keyword.split(" "))`. -/
def keywordPhrase (keyword : PyStr) : PyStr :=
  pyJoin "+".data (pySplit " ".data keyword)

/-- The esearch URL built for one keyword and the date range. -/
def searchUrl (keyword from_date to_date : PyStr) : PyStr :=
  "https://eutils.ncbi.nlm.nih.gov/entrez/eutils/esearch.fcgi?db=BioProject&term=(".data
    ++ keywordPhrase keyword
    ++ ")+AND+(\"".data ++ from_date
    ++ "\"[Registration%20Date]%20:%20%22".data ++ to_date
    ++ "%22[Registration%20Date])&RetMax=999999&retmode=json".data

/-- The keyword loop of `search_in_bioproject`.  `httpGet` is the oracle for
`requests.get`.  Returns the accumulated id list (or the fatal non-200
status, modelling `exit(1)`) together with the list of URLs actually
requested, in order. -/
def searchGo (httpGet : PyStr → HttpResponse) (from_date to_date : PyStr) :
    List PyStr → Except Nat (List PyStr) × List PyStr
  | [] => (.ok [], [])
  | keyword :: rest =>
    let url := searchUrl keyword from_date to_date
    let response := httpGet url
    if response.status_code = 200 then
      let r2 := searchGo httpGet from_date to_date rest
      (r2.1.map fun ids => response.idlist ++ ids, url :: r2.2)
    else
      (.error response.status_code, [url])

/-- `search_in_bioproject(keywords, from_date, to_date)`: per-keyword search,
fatal abort on any non-200 status, then `list(set(results_list))`
(modelled as `List.dedup`). -/
def search_in_bioproject (httpGet : PyStr → HttpResponse)
    (keywords : List PyStr) (from_date to_date : PyStr) : Except Nat (List PyStr) :=
  (searchGo httpGet from_date to_date keywords).1.map List.dedup

/-- The URLs `search_in_bioproject` requests before returning or aborting. -/
def requestedUrls (httpGet : PyStr → HttpResponse)
    (keywords : List PyStr) (from_date to_date : PyStr) : List PyStr :=
  (searchGo httpGet from_date to_date keywords).2

/-- The retry loop `for i in range(3)` of `convert_ids_to_accessions`.
`efetchId i` is the oracle for the attempt with loop index `i`: `none`
models an exception raised by `Entrez.efetch`, `some r` a handle whose
`readlines()` yields `r`.  First component: the fetched lines, if any
attempt succeeded (the `break` path); second component: how many attempts
were made. -/
def retryFetchAux (efetchId : Nat → Option (List PyStr)) :
    Nat → Nat → Option (List PyStr) × Nat
  | _, 0 => (none, 0)
  | i, remaining + 1 =>
    match efetchId i with
    | some r => (some r, 1)
    | none =>
      let r2 := retryFetchAux efetchId (i + 1) remaining
      (r2.1, r2.2 + 1)

/-- The bounded retry: 3 attempts starting at loop index 0. -/
def retryFetch (efetchId : Nat → Option (List PyStr)) :
    Option (List PyStr) × Nat :=
  retryFetchAux efetchId 0 3

/-- First list entry starting with `"1. "`
(`[result for result in cleaned_result if result.startswith("1. ")][0]`,
total here via `headD`; the guard `check_proper_entrez_response` makes the
list non-empty whenever this is reached). -/
def firstAbstract (cleaned_result : List PyStr) : PyStr :=
  (cleaned_result.filter fun result => abstractMarker.isPrefixOf result).headD []

/-- First list entry starting with `"BioProject Accession: "` (same `[0]`
pattern as `firstAbstract`). -/
def firstAccessionLine (cleaned_result : List PyStr) : PyStr :=
  (cleaned_result.filter fun result => accessionMarker.isPrefixOf result).headD []

/-- `bioproject_accession.split(": ")[1]` (total here via `getD`; the
split of a line containing `": "` always has a second field). -/
def extractAccession (line : PyStr) : PyStr :=
  (pySplit sepColon line).getD 1 []

/-- The identifier loop of `convert_ids_to_accessions`, with the two dict
accumulators.  Note the structure of the fetch-exhausted branch: the
source records the failure and then executes `break` inside the `else`
clause of the inner `for`, which leaves the OUTER loop over
`bioproject_ids`, so no later identifier is processed. -/
def convertLoop (efetch : PyStr → Nat → Option (List PyStr)) :
    List PyStr → List (PyStr × PyStr) → List (PyStr × PyStr) →
    List (PyStr × PyStr) × List (PyStr × PyStr)
  | [], bioproject_accessions, failed_bioprojects =>
    (bioproject_accessions, failed_bioprojects)
  | bioproject_id :: rest, bioproject_accessions, failed_bioprojects =>
    match (retryFetch (efetch bioproject_id)).1 with
    | none =>
      (bioproject_accessions,
        dictInsert failed_bioprojects bioproject_id "Failed to fetch".data)
    | some entrez_result =>
      let cleaned_result := pyClean entrez_result
      if check_proper_entrez_response cleaned_result then
        convertLoop efetch rest
          (dictInsert bioproject_accessions
            (extractAccession (firstAccessionLine cleaned_result))
            (firstAbstract cleaned_result))
          failed_bioprojects
      else
        convertLoop efetch rest bioproject_accessions
          (dictInsert failed_bioprojects bioproject_id (pyReprList cleaned_result))

/-- `convert_ids_to_accessions(bioproject_ids, email)`.  `email` is only
assigned to the global `Entrez.email`, which the `efetch` oracle
abstracts; it does not influence the dict outputs. -/
def convert_ids_to_accessions (efetch : PyStr → Nat → Option (List PyStr))
    (bioproject_ids : List PyStr) (_email : PyStr) :
    List (PyStr × PyStr) × List (PyStr × PyStr) :=
  convertLoop efetch bioproject_ids [] []

/-- Modelled from the spec, for the amended round-trip property: the part of
the accession-line remainder strictly before its next `": "` occurrence
(the whole remainder when none occurs). -/
def restBeforeNextSep (rest : PyStr) : PyStr :=
  match findSplit sepColon rest with
  | none => rest
  | some p => p.1

-- Sanity examples mirroring src/test/test_search.py
example :
    check_proper_entrez_response ["1. test".data, "BioProject Accession: test".data]
       = true := by decide

example : check_proper_entrez_response ["test".data, "test".data] = false := by decide

example : check_proper_entrez_response ["1. test".data, "test".data] = false := by decide

example :
    check_proper_entrez_response ["test".data, "BioProject Accession: test".data]
       = false := by decide

example :
    check_proper_entrez_response
       ["test".data, "1. test".data, "test".data, "BioProject Accession: test".data]
       = true := by decide

example : pySplit sepColon "BioProject Accession: PRJNA1".data
    = ["BioProject Accession".data, "PRJNA1".data] := by decide

example : pySplit sepColon "BioProject Accession: A: B".data
    = ["BioProject Accession".data, "A".data, "B".data] := by decide

example : pyStrip "  1. test\n".data = "1. test".data := by decide

/-! ## Helper lemmas -/

lemma check_eq_any_and (cleaned_result : List PyStr) :
    check_proper_entrez_response cleaned_result
      = ((cleaned_result.any fun result => abstractMarker.isPrefixOf result)
         && (cleaned_result.any fun result => accessionMarker.isPrefixOf result)) := by
  unfold check_proper_entrez_response
  cases h1 : (cleaned_result.any fun result => abstractMarker.isPrefixOf result) <;>
    cases h2 : (cleaned_result.any fun result => accessionMarker.isPrefixOf result) <;>
      simp [h1, h2]

lemma findSplit_accessionMarker (rest : PyStr) :
    findSplit sepColon (accessionMarker ++ rest)
      = some ("BioProject Accession".data, rest) := by
  simp +decide [findSplit, accessionMarker, sepColon, List.isPrefixOf]

lemma pySplitAux_succ (sep : PyStr) (n : Nat) (s : PyStr) :
    pySplitAux sep (n + 1) s
      = match findSplit sep s with
        | none => [s]
        | some (pre, post) => pre :: pySplitAux sep n post := rfl

lemma pySplitAux_length_pos (sep : PyStr) (fuel : Nat) (s : PyStr) :
    0 < (pySplitAux sep fuel s).length := by
  cases fuel with
  | zero => simp [pySplitAux]
  | succ n =>
    rw [pySplitAux_succ]
    cases h : findSplit sep s with
    | none => simp
    | some p => simp

lemma pySplit_accessionMarker (rest : PyStr) :
    pySplit sepColon (accessionMarker ++ rest)
      = "BioProject Accession".data
          :: pySplitAux sepColon (accessionMarker ++ rest).length rest := by
  unfold pySplit
  rw [pySplitAux_succ, findSplit_accessionMarker]

lemma pySplitAux_succ_getD_zero (n : Nat) (rest : PyStr) :
    (pySplitAux sepColon (n + 1) rest).getD 0 [] = restBeforeNextSep rest := by
  rw [pySplitAux_succ]
  unfold restBeforeNextSep
  cases h : findSplit sepColon rest with
  | none => simp
  | some p => simp

lemma extractAccession_marker (rest : PyStr) :
    extractAccession (accessionMarker ++ rest) = restBeforeNextSep rest := by
  have hlen : (accessionMarker ++ rest).length = rest.length + 21 + 1 := by
    simp [accessionMarker]
  rw [extractAccession, pySplit_accessionMarker, hlen]
  simpa using pySplitAux_succ_getD_zero (rest.length + 21) rest

lemma head?_filter_eq_find? (p : PyStr → Bool) (l : List PyStr) :
    (l.filter p).head? = l.find? p := by
  induction l with
  | nil => rfl
  | cons a t ih =>
    by_cases h : p a = true
    · simp [List.filter_cons, List.find?, h]
    · simp [List.filter_cons, List.find?, h, ih]

lemma pySplit_accessionMarker_length (rest : PyStr) :
    2 ≤ (pySplit sepColon (accessionMarker ++ rest)).length := by
  rw [pySplit_accessionMarker, List.length_cons]
  have := pySplitAux_length_pos sepColon (accessionMarker ++ rest).length rest
  omega

lemma dictInsert_nil (k v : PyStr) : dictInsert [] k v = [(k, v)] := by
  simp [dictInsert]

lemma convertLoop_cons_valid (efetch : PyStr → Nat → Option (List PyStr))
    (bioproject_id : PyStr) (rest : List PyStr)
    (accs fails : List (PyStr × PyStr)) (raw : List PyStr)
    (h1 : (retryFetch (efetch bioproject_id)).1 = some raw)
    (h2 : check_proper_entrez_response (pyClean raw) = true) :
    convertLoop efetch (bioproject_id :: rest) accs fails
      = convertLoop efetch rest
          (dictInsert accs (extractAccession (firstAccessionLine (pyClean raw)))
            (firstAbstract (pyClean raw)))
          fails := by
  rw [convertLoop.eq_2, h1]
  simp [h2]

/-! ## Claim theorems -/

/-- Claim C3: `check_proper_entrez_response` returns true iff at least one
cleaned line starts with `"1. "` and at least one starts with
`"BioProject Accession: "`, in any positions, any order, with any number
of other lines. -/
theorem check_proper_entrez_response_iff_markers (cleaned_result : List PyStr) :
    check_proper_entrez_response cleaned_result = true ↔
      ((∃ l ∈ cleaned_result, abstractMarker <+: l) ∧
       (∃ l ∈ cleaned_result, accessionMarker <+: l)) := by
  rw [check_eq_any_and]
  simp [List.any_eq_true, List.isPrefixOf_iff_prefix]

/-- Claim C9: whenever `check_proper_entrez_response` accepts the cleaned
lines, both marker filters are non-empty and the `": "`-split of the first
accession line has at least two fields, so the `[0]` and `[1]` indexings
in `convert_ids_to_accessions` are in range. -/
theorem check_valid_implies_indexings_safe (cleaned_result : List PyStr)
    (h : check_proper_entrez_response cleaned_result = true) :
    0 < (cleaned_result.filter fun result => abstractMarker.isPrefixOf result).length ∧
    0 < (cleaned_result.filter fun result => accessionMarker.isPrefixOf result).length ∧
    2 ≤ (pySplit sepColon (firstAccessionLine cleaned_result)).length := by
  rw [check_eq_any_and, Bool.and_eq_true] at h
  obtain ⟨h1, h2⟩ := h
  rw [List.any_eq_true] at h1 h2
  obtain ⟨labs, hlabsmem, hlabs⟩ := h1
  obtain ⟨lacc, haccmem, hacc⟩ := h2
  have habs : 0 < (cleaned_result.filter fun result =>
      abstractMarker.isPrefixOf result).length :=
    List.length_pos.mpr
      (List.ne_nil_of_mem (List.mem_filter.mpr ⟨hlabsmem, hlabs⟩))
  have haccf : 0 < (cleaned_result.filter fun result =>
      accessionMarker.isPrefixOf result).length :=
    List.length_pos.mpr
      (List.ne_nil_of_mem (List.mem_filter.mpr ⟨haccmem, hacc⟩))
  refine ⟨habs, haccf, ?_⟩
  obtain ⟨a, t, hat⟩ :=
    List.exists_cons_of_ne_nil (List.length_pos.mp haccf)
  have hfirst : firstAccessionLine cleaned_result = a := by
    rw [firstAccessionLine, hat]
    rfl
  have hamem : a ∈ cleaned_result.filter fun result =>
      accessionMarker.isPrefixOf result := by
    rw [hat]
    exact List.mem_cons_self a t
  have hapre : accessionMarker.isPrefixOf a = true :=
    (List.mem_filter.mp hamem).2
  obtain ⟨tail, htail⟩ := List.isPrefixOf_iff_prefix.mp hapre
  rw [hfirst, ← htail]
  exact pySplit_accessionMarker_length tail

/-- Fetch oracle whose response's accession-line remainder itself contains
`": "`. -/
def efetchColonDemo : PyStr → Nat → Option (List PyStr) := fun _ _ =>
  some ["1. colon study\n".data, "BioProject Accession: PRJ: 7\n".data]

/-- Claim C2 counterexample: for the accession line
`"BioProject Accession: PRJ: 7"`, the remainder after the first `": "` is
`"PRJ: 7"`, but the AccessionCode inserted into the result map is `"PRJ"`:
Python's `split(": ")[1]` truncates at the next separator occurrence. -/
theorem convert_accession_not_full_remainder :
    convert_ids_to_accessions efetchColonDemo ["9".data] "e@x".data
      = ([("PRJ".data, "1. colon study".data)], [])
    ∧ "PRJ".data ≠ "PRJ: 7".data := by
  constructor
  · decide
  · decide

/-- Claim C2 (amended): for a cleaned response accepted by validation whose
first accession line is `"BioProject Accession: " ++ rest`, the inserted
AccessionCode is the part of `rest` strictly before its next `": "`
occurrence (all of `rest` when `": "` does not occur in it). -/
theorem convert_accession_before_next_sep
    (efetch : PyStr → Nat → Option (List PyStr))
    (bioproject_id email raw rest : _)
    (h1 : (retryFetch (efetch bioproject_id)).1 = some raw)
    (h2 : check_proper_entrez_response (pyClean raw) = true)
    (h3 : firstAccessionLine (pyClean raw) = accessionMarker ++ rest) :
    convert_ids_to_accessions efetch [bioproject_id] email
      = ([(restBeforeNextSep rest, firstAbstract (pyClean raw))], []) := by
  rw [convert_ids_to_accessions, convertLoop_cons_valid efetch _ _ _ _ raw h1 h2,
    h3, extractAccession_marker, dictInsert_nil]
  rfl

/-- Witness for the amended C2: concrete run with remainder `"PRJ: 7"`;
the inserted code is `restBeforeNextSep "PRJ: 7" = "PRJ"`. -/
theorem convert_accession_before_next_sep_witness :
    convert_ids_to_accessions efetchColonDemo ["9".data] "e@x".data
      = ([(restBeforeNextSep "PRJ: 7".data,
           firstAbstract (pyClean ["1. colon study\n".data,
             "BioProject Accession: PRJ: 7\n".data]))], []) :=
  convert_accession_before_next_sep efetchColonDemo "9".data "e@x".data
    ["1. colon study\n".data, "BioProject Accession: PRJ: 7\n".data]
    "PRJ: 7".data (by decide) (by decide) (by decide)

/-- Claim C7 counterexample: the raw line `"  \n"` consists only of
whitespace but is not the exact string `"\n"`, so it survives the filter
and strips to the empty line: the cleaned sequence contains an empty
element. -/
theorem pyClean_whitespace_line_empty :
    pyClean ["  \n".data] = [[]] ∧ ([] : PyStr) ∈ pyClean ["  \n".data] := by
  constructor
  · decide
  · decide

/-- Claim C7 (amended): the cleaning step keeps exactly the raw lines not
equal to the one-character string `"\n"` and whitespace-trims each kept
line; a cleaned element may be empty (blank) when its raw line consists of
whitespace other than a lone `"\n"`. -/
theorem pyClean_elements_are_stripped_lines (entrez_result : List PyStr) :
    ∀ l ∈ pyClean entrez_result,
      ∃ raw ∈ entrez_result, raw ≠ "\n".data ∧ l = pyStrip raw := by
  intro l hl
  rw [pyClean] at hl
  obtain ⟨r, hr, hstr⟩ := List.mem_map.mp hl
  obtain ⟨hrm, hrne⟩ := List.mem_filter.mp hr
  exact ⟨r, hrm, by simpa using hrne, hstr.symm⟩

/-- Witness for the amended C7 at a concrete cleaned element. -/
theorem pyClean_elements_are_stripped_lines_witness :
    ∃ raw ∈ [("1. x\n".data : PyStr)], raw ≠ "\n".data ∧ "1. x".data = pyStrip raw :=
  pyClean_elements_are_stripped_lines ["1. x\n".data] "1. x".data (by decide)

/-- Claim C6: for a single identifier whose fetch raises on every attempt,
exactly 3 fetch attempts are made, the failure map gets exactly the entry
identifier → `"Failed to fetch"`, and the result map stays empty. -/
theorem convert_three_attempts_then_failure
    (efetch : PyStr → Nat → Option (List PyStr)) (bioproject_id email : PyStr)
    (h : ∀ i, efetch bioproject_id i = none) :
    retryFetch (efetch bioproject_id) = (none, 3) ∧
    convert_ids_to_accessions efetch [bioproject_id] email
      = ([], [(bioproject_id, "Failed to fetch".data)]) := by
  have hr : retryFetch (efetch bioproject_id) = (none, 3) := by
    simp [retryFetch, retryFetchAux, h]
  refine ⟨hr, ?_⟩
  rw [convert_ids_to_accessions, convertLoop.eq_2, hr]
  simp [dictInsert]

/-- Fetch oracle that raises on every attempt for every identifier. -/
def efetchAlwaysRaises : PyStr → Nat → Option (List PyStr) := fun _ _ => none

/-- Witness for C6 at a concrete identifier. -/
theorem convert_three_attempts_then_failure_witness :
    retryFetch (efetchAlwaysRaises "7".data) = (none, 3) ∧
    convert_ids_to_accessions efetchAlwaysRaises ["7".data] "e@x".data
      = ([], [("7".data, "Failed to fetch".data)]) :=
  convert_three_attempts_then_failure efetchAlwaysRaises "7".data "e@x".data
    (fun _ => rfl)

/-- Fetch oracle for which identifier `"101"` always raises while every other
identifier succeeds with a valid response. -/
def efetchBreakDemo : PyStr → Nat → Option (List PyStr) := fun bioproject_id _ =>
  if bioproject_id = "101".data then none
  else some ["1. later project\n".data, "BioProject Accession: PRJNA2\n".data]

/-- Claim C1 (documents the code bug): with input `["101", "202"]` where
`"101"` fails all 3 attempts and `"202"` would succeed with a valid
response, the function returns only the `"101"` failure entry and `"202"`
contributes nothing to either map — the `break` executed after recording
the failure leaves the loop over identifiers.  Processing `["202"]` alone
succeeds, so the identifier after the failed one was droppable work, not
an unresolvable one. -/
theorem convert_break_drops_later_identifiers :
    convert_ids_to_accessions efetchBreakDemo ["101".data, "202".data] "e@x".data
      = ([], [("101".data, "Failed to fetch".data)])
    ∧ convert_ids_to_accessions efetchBreakDemo ["202".data] "e@x".data
      = ([("PRJNA2".data, "1. later project".data)], []) := by
  constructor
  · decide
  · decide

/-- Witness for C9 at a concrete validated cleaned response. -/
theorem check_valid_implies_indexings_safe_witness :
    0 < (([("1. test".data : PyStr), "BioProject Accession: test".data]).filter
          fun result => abstractMarker.isPrefixOf result).length ∧
    0 < (([("1. test".data : PyStr), "BioProject Accession: test".data]).filter
          fun result => accessionMarker.isPrefixOf result).length ∧
    2 ≤ (pySplit sepColon
          (firstAccessionLine [("1. test".data : PyStr),
            "BioProject Accession: test".data])).length :=
  check_valid_implies_indexings_safe
    ["1. test".data, "BioProject Accession: test".data] (by decide)

lemma searchGo_all200 (httpGet : PyStr → HttpResponse) (from_date to_date : PyStr)
    (keywords : List PyStr)
    (h : ∀ k ∈ keywords, (httpGet (searchUrl k from_date to_date)).status_code = 200) :
    searchGo httpGet from_date to_date keywords
      = (.ok (keywords.flatMap fun k => (httpGet (searchUrl k from_date to_date)).idlist),
         keywords.map fun k => searchUrl k from_date to_date) := by
  induction keywords with
  | nil => rfl
  | cons k ks ih =>
    have hk := h k (List.mem_cons_self k ks)
    rw [searchGo.eq_2]
    simp only [hk, if_true, ih fun x hx => h x (List.mem_cons_of_mem k hx)]
    simp only [List.flatMap_cons, List.map_cons]
    rfl

/-- Claim C4: with a non-empty vocabulary and every per-keyword request
returning status 200, `search_in_bioproject` returns a duplicate-free list
whose elements are exactly the union of the per-keyword identifier
lists. -/
theorem search_in_bioproject_dedup_union (httpGet : PyStr → HttpResponse)
    (keywords : List PyStr) (from_date to_date : PyStr)
    (_hne : keywords ≠ [])
    (h200 : ∀ k ∈ keywords, (httpGet (searchUrl k from_date to_date)).status_code = 200) :
    ∃ ids, search_in_bioproject httpGet keywords from_date to_date = .ok ids
      ∧ ids.Nodup
      ∧ ∀ x, x ∈ ids ↔
          ∃ k ∈ keywords, x ∈ (httpGet (searchUrl k from_date to_date)).idlist := by
  refine ⟨(keywords.flatMap fun k =>
      (httpGet (searchUrl k from_date to_date)).idlist).dedup,
    ?_, List.nodup_dedup _, ?_⟩
  · rw [search_in_bioproject, searchGo_all200 httpGet from_date to_date keywords h200]
    rfl
  · intro x
    rw [List.mem_dedup, List.mem_flatMap]

/-- Search oracle returning status 200 with an overlapping id list for every
request. -/
def httpGetOverlapDemo : PyStr → HttpResponse := fun _ =>
  { status_code := 200, idlist := ["11".data, "22".data, "11".data] }

/-- Witness for C4: two keywords whose result lists overlap. -/
theorem search_in_bioproject_dedup_union_witness :
    ([("faecal".data : PyStr), "fecal".data]) ≠ [] ∧
    ∃ ids, search_in_bioproject httpGetOverlapDemo
        ["faecal".data, "fecal".data] "2022/01/01".data "2022/08/31".data = .ok ids
      ∧ ids.Nodup
      ∧ ∀ x, x ∈ ids ↔
          ∃ k ∈ [("faecal".data : PyStr), "fecal".data],
            x ∈ (httpGetOverlapDemo
              (searchUrl k "2022/01/01".data "2022/08/31".data)).idlist :=
  ⟨by decide,
    search_in_bioproject_dedup_union httpGetOverlapDemo
      ["faecal".data, "fecal".data] "2022/01/01".data "2022/08/31".data
      (by decide) (fun k _ => rfl)⟩

lemma searchGo_fatal (httpGet : PyStr → HttpResponse) (from_date to_date : PyStr)
    (pre : List PyStr) (k : PyStr) (post : List PyStr)
    (hpre : ∀ p ∈ pre, (httpGet (searchUrl p from_date to_date)).status_code = 200)
    (hk : (httpGet (searchUrl k from_date to_date)).status_code ≠ 200) :
    searchGo httpGet from_date to_date (pre ++ k :: post)
      = (.error (httpGet (searchUrl k from_date to_date)).status_code,
         (pre ++ [k]).map fun p => searchUrl p from_date to_date) := by
  induction pre with
  | nil =>
    rw [List.nil_append, searchGo.eq_2]
    simp [hk]
  | cons p ps ih =>
    have hp := hpre p (List.mem_cons_self p ps)
    rw [List.cons_append, searchGo.eq_2]
    simp only [hp, if_true, ih fun x hx => hpre x (List.mem_cons_of_mem p hx)]
    simp only [List.cons_append, List.map_cons]
    rfl

/-- Claim C5: if every keyword before `k` gets status 200 and the request
for `k` gets a non-200 status, the run terminates with that status
(`exit(1)` modelled as the `error` result, so no identifier set is
returned) and only the URLs up to and including `k`'s are ever
requested — none of the keywords after `k` is queried. -/
theorem search_in_bioproject_fatal_non200 (httpGet : PyStr → HttpResponse)
    (pre post : List PyStr) (k from_date to_date : PyStr)
    (hpre : ∀ p ∈ pre, (httpGet (searchUrl p from_date to_date)).status_code = 200)
    (hk : (httpGet (searchUrl k from_date to_date)).status_code ≠ 200) :
    search_in_bioproject httpGet (pre ++ k :: post) from_date to_date
      = .error (httpGet (searchUrl k from_date to_date)).status_code
    ∧ requestedUrls httpGet (pre ++ k :: post) from_date to_date
      = (pre ++ [k]).map fun p => searchUrl p from_date to_date := by
  rw [search_in_bioproject, requestedUrls,
    searchGo_fatal httpGet from_date to_date pre k post hpre hk]
  exact ⟨rfl, rfl⟩

/-- Search oracle that answers 500 for the keyword `"b"` and 200 otherwise. -/
def httpGetFatalDemo : PyStr → HttpResponse := fun url =>
  if url = searchUrl "b".data "2022/01/01".data "2022/08/31".data then
    { status_code := 500, idlist := [] }
  else
    { status_code := 200, idlist := ["11".data] }

set_option maxRecDepth 4000 in
/-- Witness for C5: the middle keyword of three fails with status 500. -/
theorem search_in_bioproject_fatal_non200_witness :
    search_in_bioproject httpGetFatalDemo
        (["a".data] ++ "b".data :: ["c".data]) "2022/01/01".data "2022/08/31".data
      = .error (httpGetFatalDemo
          (searchUrl "b".data "2022/01/01".data "2022/08/31".data)).status_code
    ∧ requestedUrls httpGetFatalDemo
        (["a".data] ++ "b".data :: ["c".data]) "2022/01/01".data "2022/08/31".data
      = (["a".data] ++ ["b".data]).map
          fun p => searchUrl p "2022/01/01".data "2022/08/31".data :=
  search_in_bioproject_fatal_non200 httpGetFatalDemo
    ["a".data] ["c".data] "b".data "2022/01/01".data "2022/08/31".data
    (by decide) (by decide)

lemma headD_eq_of_head? (l : List PyStr) (a : PyStr) (h : l.head? = some a) :
    l.headD [] = a := by
  cases l <;> simp_all

lemma dictInsert_same (k v1 v2 : PyStr) :
    dictInsert [(k, v1)] k v2 = [(k, v2)] := by
  simp [dictInsert]

/-- Claim C8: (first conjunct) for a validated response, the inserted entry
pairs the accession extracted from the FIRST accession-marker line with
the FIRST abstract-marker line, where "first" is `List.find?`; (second
conjunct) when two identifiers resolve to the same accession, the entry of
the later-processed identifier is the one the result map holds
(last-write-wins). -/
theorem convert_first_match_and_overwrite :
    (∀ (efetch : PyStr → Nat → Option (List PyStr)) (bioproject_id email : PyStr)
       (raw : List PyStr) (labs lacc : PyStr),
       (retryFetch (efetch bioproject_id)).1 = some raw →
       check_proper_entrez_response (pyClean raw) = true →
       (pyClean raw).find? (fun l => abstractMarker.isPrefixOf l) = some labs →
       (pyClean raw).find? (fun l => accessionMarker.isPrefixOf l) = some lacc →
       convert_ids_to_accessions efetch [bioproject_id] email
         = ([(extractAccession lacc, labs)], []))
    ∧ (∀ (efetch : PyStr → Nat → Option (List PyStr)) (id1 id2 email : PyStr)
       (raw1 raw2 : List PyStr),
       (retryFetch (efetch id1)).1 = some raw1 →
       (retryFetch (efetch id2)).1 = some raw2 →
       check_proper_entrez_response (pyClean raw1) = true →
       check_proper_entrez_response (pyClean raw2) = true →
       extractAccession (firstAccessionLine (pyClean raw1))
         = extractAccession (firstAccessionLine (pyClean raw2)) →
       dictLookup (convert_ids_to_accessions efetch [id1, id2] email).1
           (extractAccession (firstAccessionLine (pyClean raw2)))
         = some (firstAbstract (pyClean raw2))) := by
  constructor
  · intro efetch bioproject_id email raw labs lacc h1 h2 hfa hfc
    have hab : firstAbstract (pyClean raw) = labs := by
      rw [firstAbstract]
      exact headD_eq_of_head? _ _ (by rw [head?_filter_eq_find?]; exact hfa)
    have hal : firstAccessionLine (pyClean raw) = lacc := by
      rw [firstAccessionLine]
      exact headD_eq_of_head? _ _ (by rw [head?_filter_eq_find?]; exact hfc)
    rw [convert_ids_to_accessions,
      convertLoop_cons_valid efetch bioproject_id [] [] [] raw h1 h2,
      hab, hal, dictInsert_nil]
    rfl
  · intro efetch id1 id2 email raw1 raw2 h1 h2 hc1 hc2 heq
    rw [convert_ids_to_accessions,
      convertLoop_cons_valid efetch id1 [id2] [] [] raw1 h1 hc1,
      convertLoop_cons_valid efetch id2 [] _ [] raw2 h2 hc2,
      dictInsert_nil, heq, dictInsert_same]
    simp [convertLoop, dictLookup, List.find?]

/-- Fetch oracle where identifiers `"1"` and `"2"` both resolve to accession
`"PRJX"` but with different abstracts. -/
def efetchSameAccDemo : PyStr → Nat → Option (List PyStr) := fun bioproject_id _ =>
  if bioproject_id = "1".data then
    some ["1. first study\n".data, "BioProject Accession: PRJX\n".data]
  else
    some ["1. second study\n".data, "BioProject Accession: PRJX\n".data]

/-- Witness for C8: a single valid resolution, and a same-accession pair
where the later entry wins. -/
theorem convert_first_match_and_overwrite_witness :
    (convert_ids_to_accessions efetchSameAccDemo ["1".data] "e@x".data
       = ([(extractAccession "BioProject Accession: PRJX".data,
            "1. first study".data)], []))
    ∧ dictLookup (convert_ids_to_accessions efetchSameAccDemo
          ["1".data, "2".data] "e@x".data).1
        (extractAccession (firstAccessionLine
          (pyClean ["1. second study\n".data, "BioProject Accession: PRJX\n".data])))
      = some (firstAbstract
          (pyClean ["1. second study\n".data, "BioProject Accession: PRJX\n".data])) :=
  ⟨convert_first_match_and_overwrite.1 efetchSameAccDemo "1".data "e@x".data
      ["1. first study\n".data, "BioProject Accession: PRJX\n".data]
      "1. first study".data "BioProject Accession: PRJX".data
      (by decide) (by decide) (by decide) (by decide),
    convert_first_match_and_overwrite.2 efetchSameAccDemo "1".data "2".data "e@x".data
      ["1. first study\n".data, "BioProject Accession: PRJX\n".data]
      ["1. second study\n".data, "BioProject Accession: PRJX\n".data]
      (by decide) (by decide) (by decide) (by decide) (by decide)⟩

lemma any_fst_beq (m : List (PyStr × PyStr)) (k : PyStr) :
    (m.any fun p => p.1 == k) = true ↔ k ∈ m.map Prod.fst := by
  simp [List.any_eq_true, List.mem_map, beq_iff_eq]

lemma keys_dictInsert (m : List (PyStr × PyStr)) (k v : PyStr) :
    (dictInsert m k v).map Prod.fst
      = if k ∈ m.map Prod.fst then m.map Prod.fst
        else m.map Prod.fst ++ [k] := by
  by_cases h : k ∈ m.map Prod.fst
  · rw [if_pos h, dictInsert, if_pos ((any_fst_beq m k).mpr h), List.map_map]
    apply List.map_congr_left
    intro p _
    by_cases hp : p.1 = k
    · simp [Function.comp, hp]
    · simp [Function.comp, hp]
  · rw [if_neg h, dictInsert,
      if_neg (fun hc => h ((any_fst_beq m k).mp hc))]
    simp

lemma keys_dictInsert_nodup (m : List (PyStr × PyStr)) (k v : PyStr)
    (h : (m.map Prod.fst).Nodup) :
    ((dictInsert m k v).map Prod.fst).Nodup := by
  rw [keys_dictInsert]
  by_cases hk : k ∈ m.map Prod.fst
  · rwa [if_pos hk]
  · rw [if_neg hk]
    simp [List.nodup_append, h, hk]

lemma mem_keys_dictInsert (m : List (PyStr × PyStr)) (k v x : PyStr)
    (h : x ∈ (dictInsert m k v).map Prod.fst) :
    x ∈ m.map Prod.fst ∨ x = k := by
  rw [keys_dictInsert] at h
  by_cases hk : k ∈ m.map Prod.fst
  · rw [if_pos hk] at h
    exact Or.inl h
  · rw [if_neg hk] at h
    rcases List.mem_append.mp h with h2 | h2
    · exact Or.inl h2
    · simp at h2
      exact Or.inr h2

lemma convertLoop_failed_keys (efetch : PyStr → Nat → Option (List PyStr)) :
    ∀ (ids : List PyStr) (accs fails : List (PyStr × PyStr)),
      (∀ x ∈ (convertLoop efetch ids accs fails).2.map Prod.fst,
         x ∈ fails.map Prod.fst ∨ x ∈ ids) ∧
      ((fails.map Prod.fst).Nodup →
        ((convertLoop efetch ids accs fails).2.map Prod.fst).Nodup) := by
  intro ids
  induction ids with
  | nil =>
    intro accs fails
    exact ⟨fun x hx => Or.inl hx, fun h => h⟩
  | cons bioproject_id rest ih =>
    intro accs fails
    rw [convertLoop.eq_2]
    cases hf : (retryFetch (efetch bioproject_id)).1 with
    | none =>
      constructor
      · intro x hx
        rcases mem_keys_dictInsert fails bioproject_id _ x hx with h | h
        · exact Or.inl h
        · exact Or.inr (by simp [h])
      · intro h
        exact keys_dictInsert_nodup fails bioproject_id _ h
    | some raw =>
      cases hc : check_proper_entrez_response (pyClean raw) with
      | true =>
        simp only [hc, if_true]
        obtain ⟨ihsub, ihnd⟩ := ih
          (dictInsert accs (extractAccession (firstAccessionLine (pyClean raw)))
            (firstAbstract (pyClean raw))) fails
        constructor
        · intro x hx
          rcases ihsub x hx with h | h
          · exact Or.inl h
          · exact Or.inr (List.mem_cons_of_mem bioproject_id h)
        · exact ihnd
      | false =>
        simp only [hc, Bool.false_eq_true, if_false]
        obtain ⟨ihsub, ihnd⟩ := ih accs
          (dictInsert fails bioproject_id (pyReprList (pyClean raw)))
        constructor
        · intro x hx
          rcases ihsub x hx with h | h
          · rcases mem_keys_dictInsert fails bioproject_id _ x h with h2 | h2
            · exact Or.inl h2
            · exact Or.inr (by simp [h2])
          · exact Or.inr (List.mem_cons_of_mem bioproject_id h)
        · intro hnd
          exact ihnd (keys_dictInsert_nodup fails bioproject_id _ hnd)

/-- Claim C10: for every input list and every fetch behaviour, the failure
map's keys are all input identifiers and no key repeats. -/
theorem convert_failed_keys_nodup_subset
    (efetch : PyStr → Nat → Option (List PyStr))
    (bioproject_ids : List PyStr) (email : PyStr) :
    (((convert_ids_to_accessions efetch bioproject_ids email).2.map
        Prod.fst).Nodup) ∧
    ((convert_ids_to_accessions efetch bioproject_ids email).2.map Prod.fst)
      ⊆ bioproject_ids := by
  obtain ⟨hsub, hnd⟩ := convertLoop_failed_keys efetch bioproject_ids [] []
  refine ⟨hnd (by simp), fun x hx => ?_⟩
  rcases hsub x hx with h | h
  · simp at h
  · exact h

/-- Witness for C10 at a concrete failing run. -/
theorem convert_failed_keys_nodup_subset_witness :
    (((convert_ids_to_accessions efetchAlwaysRaises ["7".data] "e@x".data).2.map
        Prod.fst).Nodup) ∧
    ((convert_ids_to_accessions efetchAlwaysRaises ["7".data] "e@x".data).2.map
        Prod.fst) ⊆ ["7".data] :=
  convert_failed_keys_nodup_subset efetchAlwaysRaises ["7".data] "e@x".data
